import Mathlib

/-! SSH tunnel to a remote Docker socket (`cmd/remote/main.go`)

A shallow embedding of `createSSHTunnel`: the three startup steps, the accept
loop that runs in its own goroutine, and the two copy goroutines launched for
every accepted connection.  Library calls whose outcome the program cannot
control (`ssh.ParsePrivateKey`, `ssh.Dial`, `net.Listen`, `listener.Accept`,
`sshConn.Dial`, `io.Copy`) are answered by an explicit world; the program is a
function from those answers to the calls it makes and the value it returns.
-/

namespace SshTunnel

/-! ## Handles and library values -/

/-- The `ssh.Signer` obtained from a parsed private key. -/
structure Signer where
  id : Nat
  deriving DecidableEq, Repr

/-- The `*ssh.Client` returned by `ssh.Dial`. -/
structure SSHClient where
  id : Nat
  deriving DecidableEq, Repr

/-- The `net.Listener` returned by `net.Listen`. -/
structure Listener where
  id : Nat
  deriving DecidableEq, Repr

/-- A `net.Conn`: both `listener.Accept` and `sshConn.Dial` return one. -/
structure Conn where
  id : Nat
  deriving DecidableEq, Repr

/-- The `ssh.HostKeyCallback` policies; the program only uses the insecure one. -/
inductive HostKeyCallback where
  | insecureIgnoreHostKey
  | fixedHostKey (key : String)
  deriving DecidableEq, Repr

/-- The `ssh.ClientConfig` fields that `createSSHTunnel` sets. -/
structure ClientConfig where
  user : String
  auth : List Signer
  hostKeyCallback : HostKeyCallback
  deriving DecidableEq, Repr

/-- A library call made by the program, with its arguments. -/
inductive Call where
  | parsePrivateKey (key : String)
  | sshDial (network addr : String) (config : ClientConfig)
  | netListen (network addr : String)
  | goAcceptLoop (sshConn : SSHClient) (listener : Listener)
  | accept (listener : Listener)
  | clientDial (sshConn : SSHClient) (network addr : String)
  | logPrintf (msg : String)
  | connClose (c : Conn)
  | goCopy (dst src : Conn)
  | ioCopy (dst src : Conn)
  | clientClose (sshConn : SSHClient)
  | listenerClose (listener : Listener)
  deriving DecidableEq, Repr

/-! ## Startup: lines 17-39 and 70 -/

/-- Answers of the three startup library calls. -/
structure World where
  parsePrivateKey : String → Except String Signer
  sshDial : String → String → ClientConfig → Except String SSHClient
  netListen : String → String → Except String Listener

/-- What `createSSHTunnel` has done when it returns: the calls made so far, the
returned `error` (`none` is `nil`), and the accept-loop goroutine started by
the `go` statement, if that line was reached. -/
structure Startup where
  calls : List Call
  err : Option String
  loop : Option (SSHClient × Listener)
  deriving DecidableEq, Repr

/-- The `ssh.ClientConfig` built on lines 23-29. -/
def sshConfig (user : String) (signer : Signer) : ClientConfig :=
  { user := user, auth := [signer], hostKeyCallback := HostKeyCallback.insecureIgnoreHostKey }

/-- The body of `createSSHTunnel` up to its `return`. -/
def createSSHTunnel (w : World) (user privateKey serverAddr localAddr : String) : Startup :=
  match w.parsePrivateKey privateKey with
  | .error e =>
    { calls := [Call.parsePrivateKey privateKey]
      err := some ("failed to parse private key: " ++ e)
      loop := none }
  | .ok signer =>
    match w.sshDial "tcp" serverAddr (sshConfig user signer) with
    | .error e =>
      { calls := [Call.parsePrivateKey privateKey,
                  Call.sshDial "tcp" serverAddr (sshConfig user signer)]
        err := some ("failed to establish SSH connection: " ++ e)
        loop := none }
    | .ok sshConn =>
      match w.netListen "tcp" localAddr with
      | .error e =>
        { calls := [Call.parsePrivateKey privateKey,
                    Call.sshDial "tcp" serverAddr (sshConfig user signer),
                    Call.netListen "tcp" localAddr]
          err := some ("failed to listen on local address: " ++ e)
          loop := none }
      | .ok listener =>
        { calls := [Call.parsePrivateKey privateKey,
                    Call.sshDial "tcp" serverAddr (sshConfig user signer),
                    Call.netListen "tcp" localAddr,
                    Call.goAcceptLoop sshConn listener]
          err := none
          loop := some (sshConn, listener) }

/-! ## The accept loop: lines 41-68 -/

/-- A statement of a copy goroutine's body. -/
inductive Stmt where
  | deferClose (c : Conn)
  | ioCopy (dst src : Conn)
  deriving DecidableEq, Repr

/-- A goroutine launched by `go func() { ... }()`: its body, not yet started. -/
structure Goroutine where
  body : List Stmt
  deriving DecidableEq, Repr

/-- The goroutine of lines 56-60: remote to local. -/
def copyToLocal (localConn remoteConn : Conn) : Goroutine :=
  { body := [Stmt.deferClose localConn, Stmt.deferClose remoteConn,
             Stmt.ioCopy localConn remoteConn] }

/-- The goroutine of lines 62-66: local to remote. -/
def copyToRemote (localConn remoteConn : Conn) : Goroutine :=
  { body := [Stmt.deferClose localConn, Stmt.deferClose remoteConn,
             Stmt.ioCopy remoteConn localConn] }

/-- How one pass through a `for` body ends. -/
inductive Ctl where
  | continueStmt
  | endOfBody
  | leave
  deriving DecidableEq, Repr

/-- Answers available to one iteration: what `listener.Accept()` returns and
what `sshConn.Dial` returns if the iteration calls it. -/
structure IterWorld where
  accept : Except String Conn
  dial : Except String Conn

/-- Effect of one iteration: the calls made by the loop goroutine itself, the
goroutines it launched, and how the body ended. -/
structure IterResult where
  calls : List Call
  spawned : List Goroutine
  ctl : Ctl
  deriving DecidableEq, Repr

/-- The body of the `for` loop, lines 43-66. -/
def loopBody (sshConn : SSHClient) (listener : Listener) (w : IterWorld) : IterResult :=
  match w.accept with
  | .error e =>
    { calls := [Call.accept listener,
                Call.logPrintf ("failed to accept local connection: " ++ e)]
      spawned := []
      ctl := Ctl.continueStmt }
  | .ok localConn =>
    match w.dial with
    | .error e =>
      { calls := [Call.accept listener,
                  Call.clientDial sshConn "unix" "/var/run/docker.sock",
                  Call.logPrintf ("failed to dial remote Docker socket: " ++ e),
                  Call.connClose localConn]
        spawned := []
        ctl := Ctl.continueStmt }
    | .ok remoteConn =>
      { calls := [Call.accept listener,
                  Call.clientDial sshConn "unix" "/var/run/docker.sock",
                  Call.goCopy localConn remoteConn,
                  Call.goCopy remoteConn localConn]
        spawned := [copyToLocal localConn remoteConn, copyToRemote localConn remoteConn]
        ctl := Ctl.endOfBody }

/-- The `for { ... }` statement run against the answers of successive
iterations: one result per iteration performed, and whether the loop is still
running when the answers are used up.  A body ending in `leave` stops it. -/
def forLoop (sshConn : SSHClient) (listener : Listener) :
    List IterWorld → List IterResult × Bool
  | [] => ([], true)
  | w :: ws =>
    let r := loopBody sshConn listener w
    match r.ctl with
    | Ctl.leave => ([r], false)
    | _ =>
      let rest := forLoop sshConn listener ws
      (r :: rest.1, rest.2)

/-! ## Copy goroutines: lines 56-66 -/

/-- A started goroutine: the statements still to run and the stack of deferred
closes, most recently deferred first. -/
structure Task where
  todo : List Stmt
  defers : List Conn
  deriving DecidableEq, Repr

/-- A goroutine at the moment the `go` statement creates it. -/
def Goroutine.start (g : Goroutine) : Task :=
  { todo := g.body, defers := [] }

/-- The goroutine has returned and run all its deferred calls. -/
def Task.finished (t : Task) : Bool :=
  t.todo.isEmpty && t.defers.isEmpty

/-- One step of a goroutine and the calls it makes: a `defer` pushes onto the
stack, `io.Copy` is called and returns (its results are discarded), and once
the body is over the deferred closes run last-in first-out. -/
def Task.step (t : Task) : Task × List Call :=
  match t.todo with
  | Stmt.deferClose c :: rest => ({ todo := rest, defers := c :: t.defers }, [])
  | Stmt.ioCopy dst src :: rest => ({ todo := rest, defers := t.defers }, [Call.ioCopy dst src])
  | [] =>
    match t.defers with
    | c :: ds => ({ todo := [], defers := ds }, [Call.connClose c])
    | [] => (t, [])

/-- Runs a goroutine alone for at most the given number of steps. -/
def Task.run : Nat → Task → Task × List Call
  | 0, t => (t, [])
  | n + 1, t =>
    let r := t.step
    let rest := Task.run n r.1
    (rest.1, r.2 ++ rest.2)

/-- The two copy goroutines of one accepted connection and the calls both
have made so far, in the order they happened. -/
structure Relay where
  toLocal : Task
  toRemote : Task
  calls : List Call
  deriving DecidableEq, Repr

/-- The relay as launched by lines 56-66. -/
def Relay.launch (localConn remoteConn : Conn) : Relay :=
  { toLocal := (copyToLocal localConn remoteConn).start
    toRemote := (copyToRemote localConn remoteConn).start
    calls := [] }

/-- The scheduler lets one of the two goroutines take a step. -/
inductive Side where
  | toLocal
  | toRemote
  deriving DecidableEq, Repr

/-- One scheduling decision. -/
def Relay.step (r : Relay) : Side → Relay
  | Side.toLocal =>
    let s := r.toLocal.step
    { toLocal := s.1, toRemote := r.toRemote, calls := r.calls ++ s.2 }
  | Side.toRemote =>
    let s := r.toRemote.step
    { toLocal := r.toLocal, toRemote := s.1, calls := r.calls ++ s.2 }

/-- A whole schedule. -/
def Relay.run (r : Relay) (sched : List Side) : Relay :=
  sched.foldl Relay.step r

/-! ## The tunnel as a set of goroutines -/

/-- The accept-loop goroutine together with every copy goroutine launched so far. -/
structure System where
  sshConn : SSHClient
  listener : Listener
  running : Bool
  iterations : Nat
  loopCalls : List Call
  tasks : List Task
  taskCalls : List Call
  deriving DecidableEq, Repr

/-- The system right after the `go` statement of line 41. -/
def System.init (sshConn : SSHClient) (listener : Listener) : System :=
  { sshConn := sshConn, listener := listener, running := true, iterations := 0,
    loopCalls := [], tasks := [], taskCalls := [] }

/-- A scheduling decision: the accept loop performs one iteration against the
given answers, or the copy goroutine with the given index takes a step. -/
inductive Pick where
  | loop (w : IterWorld)
  | task (i : Nat)

/-- One scheduling decision applied to the system. -/
def System.step (s : System) : Pick → System
  | Pick.loop w =>
    if s.running then
      let r := loopBody s.sshConn s.listener w
      { s with
        running := decide (r.ctl ≠ Ctl.leave)
        iterations := s.iterations + 1
        loopCalls := s.loopCalls ++ r.calls
        tasks := s.tasks ++ r.spawned.map Goroutine.start }
    else s
  | Pick.task i =>
    match s.tasks.get? i with
    | none => s
    | some t =>
      let r := t.step
      { s with tasks := s.tasks.set i r.1, taskCalls := s.taskCalls ++ r.2 }

/-- A whole schedule applied to the system. -/
def System.run (s : System) (sched : List Pick) : System :=
  sched.foldl System.step s

/-- The program from the call of `createSSHTunnel` on: the value returned to
`main` and, when the accept loop was launched, the system after the schedule. -/
def runTunnel (w : World) (user privateKey serverAddr localAddr : String)
    (sched : List Pick) : Option String × Option System :=
  let st := createSSHTunnel w user privateKey serverAddr localAddr
  (st.err, st.loop.map fun p => (System.init p.1 p.2).run sched)

/-! ## `io.Copy` -/

/-- A byte on a stream. -/
abbrev Byte := Fin 256

/-- The error of a `Read`: end of stream, or anything else. -/
inductive ReadErr where
  | eof
  | failed (msg : String)
  deriving DecidableEq, Repr

/-- Answer of one `src.Read(buf)`: the bytes placed in the buffer and the error. -/
structure ReadStep where
  data : List Byte
  err : Option ReadErr
  deriving DecidableEq, Repr

/-- Answer of one `dst.Write(p)`: the number of bytes taken and the error. -/
structure WriteStep where
  n : Nat
  err : Option String
  deriving DecidableEq, Repr

/-- State of a copy: the bytes put on the destination so far, in order, the
count `io.Copy` reports, the error it returns, and whether it has returned. -/
structure CopyResult where
  delivered : List Byte
  written : Nat
  err : Option String
  returned : Bool
  deriving DecidableEq, Repr

/-- Modelled from the spec: `io.Copy` is Go standard-library code and is not
part of the repository's sources.  Section 4.3 says a direction copies bytes
from its source to its destination until the source returns end-of-stream or
an error; this is that loop at the granularity of `Read` and `Write` calls: a
chunk that was read is written before the read's error is looked at, a write
error or a short write ends the copy, and end-of-stream ends it without error.
The first argument answers the `Write` of each round; when the list of read
answers is used up the copy is still blocked in `Read`. -/
def ioCopyFrom (write : Nat → WriteStep) (round : Nat) (acc : CopyResult) :
    List ReadStep → CopyResult
  | [] => acc
  | r :: rs =>
    let nr := r.data.length
    let wr := write round
    let nw := if nr < wr.n then 0 else wr.n
    let ew := if nr < wr.n then (wr.err.orElse fun _ => some "invalid write result") else wr.err
    let acc1 : CopyResult :=
      if nr = 0 then acc
      else { acc with delivered := acc.delivered ++ r.data.take wr.n, written := acc.written + nw }
    if nr ≠ 0 ∧ ew.isSome then { acc1 with err := ew, returned := true }
    else if nr ≠ 0 ∧ nr ≠ nw then { acc1 with err := some "short write", returned := true }
    else
      match r.err with
      | some ReadErr.eof => { acc1 with returned := true }
      | some (ReadErr.failed m) => { acc1 with err := some m, returned := true }
      | none => ioCopyFrom write (round + 1) acc1 rs

/-- Modelled from the spec: `io.Copy(dst, src)` started on fresh streams. -/
def ioCopy (write : Nat → WriteStep) (reads : List ReadStep) : CopyResult :=
  ioCopyFrom write 0 { delivered := [], written := 0, err := none, returned := false } reads

/-- The byte sequence a stream hands to its reader: the data of every `Read`
up to and including the first one that reports an error. -/
def readable : List ReadStep → List Byte
  | [] => []
  | r :: rs =>
    match r.err with
    | some _ => r.data
    | none => r.data ++ readable rs

/-- Answers of the streams of one relay: what successive reads of a connection
return and what successive writes to it return. -/
structure Streams where
  reads : Conn → List ReadStep
  writes : Conn → Nat → WriteStep

/-- The `io.Copy` statement of a goroutine body, as (destination, source). -/
def copyArgs : List Stmt → Option (Conn × Conn)
  | [] => none
  | Stmt.ioCopy dst src :: _ => some (dst, src)
  | Stmt.deferClose _ :: rest => copyArgs rest

/-- The copy a goroutine performs against the given streams. -/
def Goroutine.copy (g : Goroutine) (s : Streams) : Option (Conn × CopyResult) :=
  (copyArgs g.body).map fun p => (p.1, ioCopy (s.writes p.1) (s.reads p.2))

/-! ## Measures on schedules and calls -/

/-- Number of accept-loop iterations in a schedule. -/
def loopPicks : List Pick → Nat
  | [] => 0
  | Pick.loop _ :: ps => loopPicks ps + 1
  | Pick.task _ :: ps => loopPicks ps

/-- The call closes the SSH connection or the listener. -/
def Call.closesSession : Call → Bool
  | Call.clientClose _ => true
  | Call.listenerClose _ => true
  | _ => false

/-- The call is a channel-open attempt on an SSH connection. -/
def Call.isClientDial : Call → Bool
  | Call.clientDial _ _ _ => true
  | _ => false

/-- The connection a statement defers the close of. -/
def Stmt.deferred : Stmt → Option Conn
  | Stmt.deferClose c => some c
  | Stmt.ioCopy _ _ => none

/-- The connections a goroutine is still bound to close: those on its defer
stack and those its remaining statements will defer. -/
def Task.pending (t : Task) : List Conn :=
  t.defers ++ t.todo.filterMap Stmt.deferred

/-- The answers given to the accept loop's iterations in a schedule, in order. -/
def loopWorlds : List Pick → List IterWorld
  | [] => []
  | Pick.loop w :: ps => w :: loopWorlds ps
  | Pick.task _ :: ps => loopWorlds ps

/-- Number of iterations whose `Accept` returns a connection. -/
def acceptedCount : List IterWorld → Nat
  | [] => 0
  | w :: ws =>
    (match w.accept with
      | .ok _ => 1
      | .error _ => 0) + acceptedCount ws

/-! ## Sample worlds -/

/-- A world in which the private key does not parse. -/
def badKeyWorld : World :=
  { parsePrivateKey := fun _ => .error "ssh: no key found"
    sshDial := fun _ _ _ => .ok { id := 1 }
    netListen := fun _ _ => .ok { id := 2 } }

/-- A world in which the key parses and the SSH server refuses the connection. -/
def noServerWorld : World :=
  { parsePrivateKey := fun _ => .ok { id := 0 }
    sshDial := fun _ _ _ => .error "connection refused"
    netListen := fun _ _ => .ok { id := 2 } }

/-- A world in which the key parses, the SSH connection is made and the local
address is already taken. -/
def portTakenWorld : World :=
  { parsePrivateKey := fun _ => .ok { id := 0 }
    sshDial := fun _ _ _ => .ok { id := 1 }
    netListen := fun _ _ => .error "address already in use" }

/-- A world in which all three startup steps succeed. -/
def goodWorld : World :=
  { parsePrivateKey := fun _ => .ok { id := 0 }
    sshDial := fun _ _ _ => .ok { id := 1 }
    netListen := fun _ _ => .ok { id := 2 } }

/-- An iteration whose `Accept` fails. -/
def acceptFails : IterWorld :=
  { accept := .error "too many open files", dial := .ok { id := 99 } }

/-- An iteration whose `Accept` returns connection 10 and whose channel-open fails. -/
def dialFails : IterWorld :=
  { accept := .ok { id := 10 }, dial := .error "open failed" }

/-- An iteration whose `Accept` returns connection 20 and whose channel-open
returns channel 21. -/
def bothSucceed : IterWorld :=
  { accept := .ok { id := 20 }, dial := .ok { id := 21 } }

/-- Streams of a relay over connection 20 and channel 21: the client sends
`PING` in two reads and closes, the remote socket answers `PONG` and closes;
every write takes the whole chunk. -/
def pingPong : Streams :=
  { reads := fun c =>
      if c.id = 20 then
        [{ data := [80, 73], err := none }, { data := [78, 71], err := none },
         { data := [], err := some ReadErr.eof }]
      else [{ data := [80, 79, 78, 71], err := some ReadErr.eof }]
    writes := fun c round =>
      if c.id = 20 then { n := 4, err := none }
      else if round = 2 then { n := 0, err := none } else { n := 2, err := none } }

/-- Streams of a relay over connection 20 and channel 21 on which the client
has sent `PING` in two reads and keeps the connection open, the remote socket
has sent nothing yet, and every write takes the whole chunk. -/
def openPing : Streams :=
  { reads := fun c =>
      if c.id = 20 then
        [{ data := [80, 73], err := none }, { data := [78, 71], err := none }]
      else []
    writes := fun c _ =>
      if c.id = 20 then { n := 4, err := none } else { n := 2, err := none } }

/-! ## Facts about the loop body -/

theorem loopBody_ctl_ne_leave (sshConn : SSHClient) (listener : Listener) (w : IterWorld) :
    (loopBody sshConn listener w).ctl ≠ Ctl.leave := by
  unfold loopBody
  cases w.accept <;> cases w.dial <;> simp

theorem forLoop_eq_map (sshConn : SSHClient) (listener : Listener) (ws : List IterWorld) :
    forLoop sshConn listener ws = (ws.map (loopBody sshConn listener), true) := by
  induction ws with
  | nil => rfl
  | cons w ws ih =>
    have h := loopBody_ctl_ne_leave sshConn listener w
    cases hc : (loopBody sshConn listener w).ctl with
    | leave => exact absurd hc h
    | continueStmt => simp [forLoop, hc, ih]
    | endOfBody => simp [forLoop, hc, ih]

theorem loopBody_accept_error (sshConn : SSHClient) (listener : Listener) (w : IterWorld)
    (e : String) (h : w.accept = .error e) :
    loopBody sshConn listener w =
      { calls := [Call.accept listener,
                  Call.logPrintf ("failed to accept local connection: " ++ e)]
        spawned := []
        ctl := Ctl.continueStmt } := by
  unfold loopBody
  rw [h]

theorem loopBody_dial_error (sshConn : SSHClient) (listener : Listener) (w : IterWorld)
    (localConn : Conn) (e : String) (ha : w.accept = .ok localConn) (hd : w.dial = .error e) :
    loopBody sshConn listener w =
      { calls := [Call.accept listener,
                  Call.clientDial sshConn "unix" "/var/run/docker.sock",
                  Call.logPrintf ("failed to dial remote Docker socket: " ++ e),
                  Call.connClose localConn]
        spawned := []
        ctl := Ctl.continueStmt } := by
  unfold loopBody
  rw [ha, hd]

theorem loopBody_ok (sshConn : SSHClient) (listener : Listener) (w : IterWorld)
    (localConn remoteConn : Conn) (ha : w.accept = .ok localConn)
    (hd : w.dial = .ok remoteConn) :
    loopBody sshConn listener w =
      { calls := [Call.accept listener,
                  Call.clientDial sshConn "unix" "/var/run/docker.sock",
                  Call.goCopy localConn remoteConn,
                  Call.goCopy remoteConn localConn]
        spawned := [copyToLocal localConn remoteConn, copyToRemote localConn remoteConn]
        ctl := Ctl.endOfBody } := by
  unfold loopBody
  rw [ha, hd]

theorem loopBody_calls_keep_session (sshConn : SSHClient) (listener : Listener)
    (w : IterWorld) : ∀ c ∈ (loopBody sshConn listener w).calls, c.closesSession = false := by
  unfold loopBody
  cases w.accept <;> cases w.dial <;> simp [Call.closesSession]

theorem loopBody_calls_no_copy (sshConn : SSHClient) (listener : Listener)
    (w : IterWorld) : ∀ d s, Call.ioCopy d s ∉ (loopBody sshConn listener w).calls := by
  unfold loopBody
  cases w.accept <;> cases w.dial <;> simp

/-! ## Facts about goroutine steps -/

theorem Task.step_calls_keep_session (t : Task) : ∀ c ∈ t.step.2, c.closesSession = false := by
  unfold Task.step
  split
  · simp
  · simp [Call.closesSession]
  · split <;> simp [Call.closesSession]

theorem Task.step_pending (t : Task) (c : Conn) (h : c ∈ t.pending) :
    c ∈ t.step.1.pending ∨ Call.connClose c ∈ t.step.2 := by
  unfold Task.step
  split
  · rename_i c1 rest htodo
    left
    simp only [Task.pending, htodo, List.filterMap_cons, Stmt.deferred, List.mem_append,
      List.mem_cons] at h ⊢
    tauto
  · rename_i d src rest htodo
    left
    simp only [Task.pending, htodo, List.filterMap_cons, Stmt.deferred] at h ⊢
    exact h
  · rename_i htodo
    split
    · rename_i c1 ds hdef
      simp only [Task.pending, htodo, hdef, List.filterMap_nil, List.append_nil,
        List.mem_cons] at h ⊢
      rcases h with h | h
      · right; simp [h]
      · left; exact h
    · left; exact h

theorem Task.finished_pending (t : Task) (h : t.finished = true) : t.pending = [] := by
  simp only [Task.finished, Bool.and_eq_true, List.isEmpty_iff] at h
  simp [Task.pending, h.1, h.2]

theorem Relay.step_closes (r : Relay) (side : Side) (c : Conn)
    (h1 : c ∈ r.toLocal.pending ∨ Call.connClose c ∈ r.calls)
    (h2 : c ∈ r.toRemote.pending ∨ Call.connClose c ∈ r.calls) :
    (c ∈ (r.step side).toLocal.pending ∨ Call.connClose c ∈ (r.step side).calls) ∧
    (c ∈ (r.step side).toRemote.pending ∨ Call.connClose c ∈ (r.step side).calls) := by
  cases side with
  | toLocal =>
    simp only [Relay.step, List.mem_append]
    constructor
    · rcases h1 with h | h
      · rcases Task.step_pending r.toLocal c h with h | h
        · exact Or.inl h
        · exact Or.inr (Or.inr h)
      · exact Or.inr (Or.inl h)
    · rcases h2 with h | h
      · exact Or.inl h
      · exact Or.inr (Or.inl h)
  | toRemote =>
    simp only [Relay.step, List.mem_append]
    constructor
    · rcases h1 with h | h
      · exact Or.inl h
      · exact Or.inr (Or.inl h)
    · rcases h2 with h | h
      · rcases Task.step_pending r.toRemote c h with h | h
        · exact Or.inl h
        · exact Or.inr (Or.inr h)
      · exact Or.inr (Or.inl h)

theorem Relay.run_closes (sched : List Side) (c : Conn) :
    ∀ r : Relay,
      (c ∈ r.toLocal.pending ∨ Call.connClose c ∈ r.calls) →
      (c ∈ r.toRemote.pending ∨ Call.connClose c ∈ r.calls) →
      (c ∈ (r.run sched).toLocal.pending ∨ Call.connClose c ∈ (r.run sched).calls) ∧
      (c ∈ (r.run sched).toRemote.pending ∨ Call.connClose c ∈ (r.run sched).calls) := by
  induction sched with
  | nil => intro r h1 h2; exact ⟨h1, h2⟩
  | cons side rest ih =>
    intro r h1 h2
    have hs := Relay.step_closes r side c h1 h2
    have hrun : r.run (side :: rest) = (r.step side).run rest := by simp [Relay.run]
    rw [hrun]
    exact ih (r.step side) hs.1 hs.2

theorem Relay.finished_closed (sched : List Side) (localConn remoteConn c : Conn)
    (hc : c = localConn ∨ c = remoteConn)
    (hf : ((Relay.launch localConn remoteConn).run sched).toLocal.finished = true ∨
      ((Relay.launch localConn remoteConn).run sched).toRemote.finished = true) :
    Call.connClose c ∈ ((Relay.launch localConn remoteConn).run sched).calls := by
  have h := Relay.run_closes sched c (Relay.launch localConn remoteConn)
    (by left; rcases hc with h | h <;>
          simp [h, Relay.launch, copyToLocal, Goroutine.start, Task.pending, Stmt.deferred])
    (by left; rcases hc with h | h <;>
          simp [h, Relay.launch, copyToRemote, Goroutine.start, Task.pending, Stmt.deferred])
  rcases hf with hf | hf
  · rcases h.1 with h | h
    · rw [Task.finished_pending _ hf] at h; simp at h
    · exact h
  · rcases h.2 with h | h
    · rw [Task.finished_pending _ hf] at h; simp at h
    · exact h

/-! ## Facts about schedules -/

theorem System.step_running (s : System) (p : Pick) (h : s.running = true) :
    (s.step p).running = true := by
  cases p with
  | loop w => simp [System.step, h, loopBody_ctl_ne_leave]
  | task i =>
    simp only [System.step]
    split <;> simp [h]

theorem System.step_iterations (s : System) (p : Pick) (h : s.running = true) :
    (s.step p).iterations = s.iterations + loopPicks [p] := by
  cases p with
  | loop w => simp [System.step, h, loopPicks]
  | task i =>
    simp only [System.step, loopPicks]
    split <;> simp

theorem System.step_keeps_session (s : System) (p : Pick)
    (h : ∀ c ∈ s.loopCalls ++ s.taskCalls, c.closesSession = false) :
    ∀ c ∈ (s.step p).loopCalls ++ (s.step p).taskCalls, c.closesSession = false := by
  cases p with
  | loop w =>
    simp only [System.step]
    split
    · intro c hc
      simp only [List.mem_append] at hc h
      rcases hc with (hc | hc) | hc
      · exact h c (Or.inl hc)
      · exact loopBody_calls_keep_session _ _ _ c hc
      · exact h c (Or.inr hc)
    · exact h
  | task i =>
    simp only [System.step]
    split
    · exact h
    · rename_i t _
      intro c hc
      simp only [List.mem_append] at hc h
      rcases hc with hc | hc | hc
      · exact h c (Or.inl hc)
      · exact h c (Or.inr hc)
      · exact Task.step_calls_keep_session t c hc

theorem loopPicks_cons (p : Pick) (ps : List Pick) :
    loopPicks (p :: ps) = loopPicks [p] + loopPicks ps := by
  cases p <;> simp [loopPicks, Nat.add_comm]

theorem System.run_invariant (sched : List Pick) :
    ∀ s : System, s.running = true →
      (∀ c ∈ s.loopCalls ++ s.taskCalls, c.closesSession = false) →
      (s.run sched).running = true ∧
      (s.run sched).iterations = s.iterations + loopPicks sched ∧
      ∀ c ∈ (s.run sched).loopCalls ++ (s.run sched).taskCalls, c.closesSession = false := by
  induction sched with
  | nil => intro s h hc; exact ⟨h, by simp [System.run, loopPicks], hc⟩
  | cons p ps ih =>
    intro s h hc
    have h1 := System.step_running s p h
    have h2 := System.step_iterations s p h
    have h3 := System.step_keeps_session s p hc
    obtain ⟨r1, r2, r3⟩ := ih (s.step p) h1 h3
    have hrun : s.run (p :: ps) = (s.step p).run ps := by simp [System.run]
    rw [hrun]
    refine ⟨r1, ?_, r3⟩
    rw [r2, h2, loopPicks_cons p ps, Nat.add_assoc]

theorem System.step_loop (s : System) (w : IterWorld) (h : s.running = true) :
    s.step (Pick.loop w) =
      { s with
        running := true
        iterations := s.iterations + 1
        loopCalls := s.loopCalls ++ (loopBody s.sshConn s.listener w).calls
        tasks := s.tasks ++ (loopBody s.sshConn s.listener w).spawned.map Goroutine.start } := by
  simp [System.step, h, loopBody_ctl_ne_leave]

theorem System.run_loop_only (ws : List IterWorld) :
    ∀ s : System, s.running = true →
      (s.run (ws.map Pick.loop)).iterations = s.iterations + ws.length ∧
      (s.run (ws.map Pick.loop)).running = true ∧
      (s.run (ws.map Pick.loop)).taskCalls = s.taskCalls ∧
      (s.run (ws.map Pick.loop)).tasks = s.tasks ++
        ((ws.map (loopBody s.sshConn s.listener)).flatMap fun r =>
          r.spawned.map Goroutine.start) := by
  induction ws with
  | nil => intro s h; simp [System.run, h]
  | cons w ws ih =>
    intro s h
    have hrun : s.run ((w :: ws).map Pick.loop)
        = (s.step (Pick.loop w)).run (ws.map Pick.loop) := by simp [System.run]
    have hs := System.step_loop s w h
    obtain ⟨r1, r2, r3, r4⟩ := ih (s.step (Pick.loop w)) (System.step_running s _ h)
    rw [hrun]
    refine ⟨?_, r2, ?_, ?_⟩
    · rw [r1, hs]; simp only [List.length_cons]; omega
    · rw [r3, hs]
    · rw [r4, hs]; simp [List.append_assoc]

theorem System.step_task_frame (s : System) (i : Nat) :
    (s.step (Pick.task i)).running = s.running ∧
    (s.step (Pick.task i)).iterations = s.iterations ∧
    (s.step (Pick.task i)).loopCalls = s.loopCalls ∧
    (s.step (Pick.task i)).sshConn = s.sshConn ∧
    (s.step (Pick.task i)).listener = s.listener ∧
    ∀ j, j ≠ i → (s.step (Pick.task i)).tasks.get? j = s.tasks.get? j := by
  simp only [System.step]
  split
  · simp
  · refine ⟨rfl, rfl, rfl, rfl, rfl, ?_⟩
    intro j hj
    simp [List.getElem?_set, Ne.symm hj]

theorem System.step_commute (s : System) (w : IterWorld) (i : Nat)
    (h : s.running = true) (hi : i < s.tasks.length) :
    (s.step (Pick.loop w)).step (Pick.task i) = (s.step (Pick.task i)).step (Pick.loop w) := by
  have hget : s.tasks.get? i = some (s.tasks.get ⟨i, hi⟩) := by
    simp [List.getElem?_eq_getElem hi]
  have hget2 : ∀ l : List Task, (s.tasks ++ l).get? i = some (s.tasks.get ⟨i, hi⟩) := by
    intro l
    simp [List.getElem?_append_left hi, List.getElem?_eq_getElem hi]
  have hset : ∀ (l : List Task) (t : Task), (s.tasks ++ l).set i t = s.tasks.set i t ++ l := by
    intro l t
    exact List.set_append_left _ _ hi
  simp only [System.step, h, if_true, hget, hget2, hset]

theorem System.run_loopCalls (sched : List Pick) :
    ∀ s : System, s.running = true →
      (s.run sched).sshConn = s.sshConn ∧
      (s.run sched).listener = s.listener ∧
      (s.run sched).loopCalls = s.loopCalls ++
        (((loopWorlds sched).map (loopBody s.sshConn s.listener)).flatMap fun r => r.calls) := by
  induction sched with
  | nil => intro s _; simp [System.run, loopWorlds]
  | cons p ps ih =>
    intro s h
    have hrun : s.run (p :: ps) = (s.step p).run ps := by simp [System.run]
    obtain ⟨r1, r2, r3⟩ := ih (s.step p) (System.step_running s p h)
    rw [hrun, r1, r2, r3]
    cases p with
    | loop w =>
      rw [System.step_loop s w h]
      simp [loopWorlds, List.append_assoc]
    | task i =>
      have hf := System.step_task_frame s i
      rw [hf.2.2.1, hf.2.2.2.1, hf.2.2.2.2.1]
      simp [loopWorlds]

theorem loopBody_clientDial_count (sshConn : SSHClient) (listener : Listener)
    (ws : List IterWorld) :
    (((ws.map (loopBody sshConn listener)).flatMap fun r => r.calls).countP
      Call.isClientDial) = acceptedCount ws := by
  induction ws with
  | nil => simp [acceptedCount]
  | cons w ws ih =>
    simp only [List.map_cons, List.flatMap_cons, List.countP_append, ih, acceptedCount]
    congr 1
    unfold loopBody
    cases w.accept <;> cases w.dial <;> simp [Call.isClientDial]

theorem loopBody_clientDial_target (sshConn : SSHClient) (listener : Listener)
    (w : IterWorld) (c : SSHClient) (n a : String)
    (hc : Call.clientDial c n a ∈ (loopBody sshConn listener w).calls) :
    c = sshConn ∧ n = "unix" ∧ a = "/var/run/docker.sock" := by
  unfold loopBody at hc
  cases ha : w.accept <;> cases hd : w.dial <;> simp [ha, hd] at hc <;> simp [hc]

theorem createSSHTunnel_ok (w : World) (user privateKey serverAddr localAddr : String)
    (signer : Signer) (sshConn : SSHClient) (listener : Listener)
    (h1 : w.parsePrivateKey privateKey = .ok signer)
    (h2 : w.sshDial "tcp" serverAddr (sshConfig user signer) = .ok sshConn)
    (h3 : w.netListen "tcp" localAddr = .ok listener) :
    createSSHTunnel w user privateKey serverAddr localAddr =
      { calls := [Call.parsePrivateKey privateKey,
                  Call.sshDial "tcp" serverAddr (sshConfig user signer),
                  Call.netListen "tcp" localAddr,
                  Call.goAcceptLoop sshConn listener]
        err := none
        loop := some (sshConn, listener) } := by
  simp [createSSHTunnel, h1, h2, h3]

/-! ## Facts about `io.Copy` -/

theorem ioCopyFrom_delivered (write : Nat → WriteStep) (reads : List ReadStep) :
    ∀ (round : Nat) (acc : CopyResult), ∃ d rest,
      (ioCopyFrom write round acc reads).delivered = acc.delivered ++ d ∧
      readable reads = d ++ rest := by
  induction reads with
  | nil => intro round acc; exact ⟨[], [], by simp [ioCopyFrom], by simp [readable]⟩
  | cons r rs ih =>
    intro round acc
    simp only [ioCopyFrom, readable]
    by_cases hnr : r.data.length = 0
    · have hdata : r.data = [] := List.length_eq_zero.mp hnr
      simp only [hnr, hdata, ne_eq, not_true_eq_false, false_and, if_false, if_true]
      cases herr : r.err with
      | none =>
        obtain ⟨d, rest, h1, h2⟩ := ih (round + 1) acc
        exact ⟨d, rest, by simpa using h1, by simpa using h2⟩
      | some e =>
        cases e <;> exact ⟨[], [], by simp, by simp⟩
    · simp only [hnr, if_false, ne_eq, not_false_eq_true, true_and]
      have htake : ∃ tl, r.data = r.data.take (write round).n ++ tl :=
        ⟨r.data.drop (write round).n, (List.take_append_drop _ _).symm⟩
      obtain ⟨tl, htl⟩ := htake
      have hpre : ∃ rest, (match r.err with
          | some _ => r.data
          | none => r.data ++ readable rs) = r.data.take (write round).n ++ rest := by
        cases r.err with
        | none => exact ⟨tl ++ readable rs, by rw [← List.append_assoc, ← htl]⟩
        | some e => exact ⟨tl, htl⟩
      obtain ⟨rest0, hrest0⟩ := hpre
      by_cases hlt : r.data.length < (write round).n
      · have hsome : ((write round).err.orElse fun _ => some "invalid write result").isSome
            = true := by
          cases (write round).err <;> simp [Option.orElse]
        simp only [hlt, if_true, hsome]
        exact ⟨_, rest0, rfl, hrest0⟩
      · simp only [hlt, if_false]
        by_cases hew : (write round).err.isSome = true
        · simp only [hew, if_true]
          exact ⟨_, rest0, rfl, hrest0⟩
        · simp only [hew, if_false]
          by_cases hsh : r.data.length = (write round).n
          · simp only [hsh, not_true_eq_false, if_false]
            have hfull : r.data.take (write round).n = r.data := by
              rw [← hsh]; exact List.take_length _
            cases herr : r.err with
            | none =>
              obtain ⟨d, rest, h1, h2⟩ := ih (round + 1)
                { acc with delivered := acc.delivered ++ r.data.take (write round).n,
                           written := acc.written + (write round).n }
              refine ⟨r.data ++ d, rest, ?_, ?_⟩
              · simp only [Bool.false_eq_true, if_false]
                rw [h1, hfull, List.append_assoc]
              · simp only [h2, List.append_assoc]
            | some e =>
              cases e <;> exact ⟨r.data, [], by simp [hfull], by simp⟩
          · simp only [hsh, not_false_eq_true, if_true]
            exact ⟨_, rest0, rfl, hrest0⟩

theorem ioCopyFrom_no_error (write : Nat → WriteStep) (reads : List ReadStep) :
    ∀ (round : Nat) (acc : CopyResult),
      (ioCopyFrom write round acc reads).err = none →
      (ioCopyFrom write round acc reads).delivered = acc.delivered ++ readable reads := by
  induction reads with
  | nil =>
    intro round acc _
    simp [ioCopyFrom, readable]
  | cons r rs ih =>
    intro round acc
    simp only [ioCopyFrom, readable]
    by_cases hnr : r.data.length = 0
    · have hdata : r.data = [] := List.length_eq_zero.mp hnr
      simp only [hnr, hdata, ne_eq, not_true_eq_false, false_and, if_false, if_true]
      cases herr : r.err with
      | none =>
        intro h4
        simpa using ih (round + 1) acc h4
      | some e => cases e <;> simp
    · simp only [hnr, if_false, ne_eq, not_false_eq_true, true_and]
      by_cases hlt : r.data.length < (write round).n
      · have hsome : ((write round).err.orElse fun _ => some "invalid write result").isSome
            = true := by
          cases (write round).err <;> simp [Option.orElse]
        simp only [hlt, if_true, hsome]
        intro h4
        rw [h4] at hsome
        simp at hsome
      · simp only [hlt, if_false]
        by_cases hew : (write round).err.isSome = true
        · simp only [hew, if_true]
          intro h4
          rw [h4] at hew
          simp at hew
        · simp only [hew, if_false]
          by_cases hsh : r.data.length = (write round).n
          · simp only [hsh, not_true_eq_false, if_false]
            have hfull : r.data.take (write round).n = r.data := by
              rw [← hsh]; exact List.take_length _
            cases herr : r.err with
            | none =>
              intro h4
              simp only [Bool.false_eq_true, if_false] at h4 ⊢
              have hrec := ih (round + 1)
                { acc with delivered := acc.delivered ++ r.data.take (write round).n,
                           written := acc.written + (write round).n } h4
              rw [hrec]
              simp only [hfull, List.append_assoc]
            | some e => cases e <;> simp [hfull]
          · simp only [hsh, not_false_eq_true, if_true]
            intro h4
            simp at h4

theorem ioCopyFrom_returns (write : Nat → WriteStep) (reads : List ReadStep) :
    ∀ (round : Nat) (acc : CopyResult), (∃ r ∈ reads, r.err.isSome = true) →
      (ioCopyFrom write round acc reads).returned = true := by
  induction reads with
  | nil => intro round acc h; simp at h
  | cons r rs ih =>
    intro round acc h
    simp only [ioCopyFrom]
    split_ifs <;> try rfl
    all_goals
      cases herr : r.err with
      | none =>
        obtain ⟨r1, hr1, he⟩ := h
        simp only [List.mem_cons] at hr1
        rcases hr1 with hr1 | hr1
        · subst hr1; rw [herr] at he; simp at he
        · exact ih _ _ ⟨r1, hr1, he⟩
      | some e => cases e <;> rfl

/-! ## Claims about startup -/

/-- C6: if `ssh.ParsePrivateKey` fails, `createSSHTunnel` returns a non-nil
error having made no other call than the parse (no `ssh.Dial`, no
`net.Listen`) and no accept loop exists under any schedule; if the key parses
and `ssh.Dial` fails, it returns a non-nil error having called neither
`net.Listen` nor started an accept loop. -/
theorem createSSHTunnel_startup_abort (w : World)
    (user privateKey serverAddr localAddr : String) :
    (∀ e, w.parsePrivateKey privateKey = .error e →
      (createSSHTunnel w user privateKey serverAddr localAddr).err
          = some ("failed to parse private key: " ++ e) ∧
      (createSSHTunnel w user privateKey serverAddr localAddr).calls
          = [Call.parsePrivateKey privateKey] ∧
      (∀ n a c, Call.sshDial n a c ∉
          (createSSHTunnel w user privateKey serverAddr localAddr).calls) ∧
      (∀ n a, Call.netListen n a ∉
          (createSSHTunnel w user privateKey serverAddr localAddr).calls) ∧
      (∀ l, Call.accept l ∉
          (createSSHTunnel w user privateKey serverAddr localAddr).calls) ∧
      ∀ sched, (runTunnel w user privateKey serverAddr localAddr sched).2 = none) ∧
    (∀ signer e, w.parsePrivateKey privateKey = .ok signer →
      w.sshDial "tcp" serverAddr (sshConfig user signer) = .error e →
      (createSSHTunnel w user privateKey serverAddr localAddr).err
          = some ("failed to establish SSH connection: " ++ e) ∧
      (createSSHTunnel w user privateKey serverAddr localAddr).calls
          = [Call.parsePrivateKey privateKey,
             Call.sshDial "tcp" serverAddr (sshConfig user signer)] ∧
      (∀ n a, Call.netListen n a ∉
          (createSSHTunnel w user privateKey serverAddr localAddr).calls) ∧
      (∀ l, Call.accept l ∉
          (createSSHTunnel w user privateKey serverAddr localAddr).calls) ∧
      ∀ sched, (runTunnel w user privateKey serverAddr localAddr sched).2 = none) := by
  constructor
  · intro e h
    simp [runTunnel, createSSHTunnel, h]
  · intro signer e h1 h2
    simp [runTunnel, createSSHTunnel, h1, h2]

/-- Witness for C6: a key that does not parse, and a server that refuses. -/
theorem createSSHTunnel_startup_abort_witness :
    ((createSSHTunnel badKeyWorld "root" "not a key" "host:22" "localhost:2375").calls
        = [Call.parsePrivateKey "not a key"] ∧
      ∀ sched, (runTunnel badKeyWorld "root" "not a key" "host:22" "localhost:2375" sched).2
        = none) ∧
    ((createSSHTunnel noServerWorld "root" "key" "host:22" "localhost:2375").err
        = some "failed to establish SSH connection: connection refused" ∧
      ∀ sched, (runTunnel noServerWorld "root" "key" "host:22" "localhost:2375" sched).2
        = none) :=
  ⟨⟨((createSSHTunnel_startup_abort badKeyWorld "root" "not a key" "host:22"
        "localhost:2375").1 "ssh: no key found" rfl).2.1,
    ((createSSHTunnel_startup_abort badKeyWorld "root" "not a key" "host:22"
        "localhost:2375").1 "ssh: no key found" rfl).2.2.2.2.2⟩,
   ⟨((createSSHTunnel_startup_abort noServerWorld "root" "key" "host:22"
        "localhost:2375").2 { id := 0 } "connection refused" rfl rfl).1,
    ((createSSHTunnel_startup_abort noServerWorld "root" "key" "host:22"
        "localhost:2375").2 { id := 0 } "connection refused" rfl rfl).2.2.2.2⟩⟩

/-- C7: `createSSHTunnel` returns a non-nil error exactly when the key parse,
the SSH dial or the local listen fails; it returns nil exactly when it has
launched the accept loop; under every schedule of accept-loop iterations
(with any answers, failures included) and copy-goroutine steps the value
returned to the caller is that same value; and whenever nil was returned, in
particular when all three steps succeed, the accept loop exists under every
such schedule, runs on the SSH connection and the listener obtained at
startup, has done one iteration per loop decision and is still running. -/
theorem createSSHTunnel_error_iff (w : World)
    (user privateKey serverAddr localAddr : String) :
    ((createSSHTunnel w user privateKey serverAddr localAddr).err ≠ none ↔
      (∃ e, w.parsePrivateKey privateKey = .error e) ∨
      (∃ signer e, w.parsePrivateKey privateKey = .ok signer ∧
        w.sshDial "tcp" serverAddr (sshConfig user signer) = .error e) ∨
      (∃ signer sshConn e, w.parsePrivateKey privateKey = .ok signer ∧
        w.sshDial "tcp" serverAddr (sshConfig user signer) = .ok sshConn ∧
        w.netListen "tcp" localAddr = .error e)) ∧
    ((createSSHTunnel w user privateKey serverAddr localAddr).err = none ↔
      ∃ sshConn listener,
        (createSSHTunnel w user privateKey serverAddr localAddr).loop
          = some (sshConn, listener) ∧
        Call.goAcceptLoop sshConn listener ∈
          (createSSHTunnel w user privateKey serverAddr localAddr).calls) ∧
    (∀ sched,
      (runTunnel w user privateKey serverAddr localAddr sched).1
        = (createSSHTunnel w user privateKey serverAddr localAddr).err ∧
      ∀ sys, (runTunnel w user privateKey serverAddr localAddr sched).2 = some sys →
        sys.running = true ∧ sys.iterations = loopPicks sched) ∧
    ((createSSHTunnel w user privateKey serverAddr localAddr).err = none →
      ∀ sched, ∃ sys,
        (runTunnel w user privateKey serverAddr localAddr sched).2 = some sys ∧
        sys.running = true ∧ sys.iterations = loopPicks sched) ∧
    (∀ signer sshConn listener, w.parsePrivateKey privateKey = .ok signer →
      w.sshDial "tcp" serverAddr (sshConfig user signer) = .ok sshConn →
      w.netListen "tcp" localAddr = .ok listener →
      (createSSHTunnel w user privateKey serverAddr localAddr).err = none ∧
      (createSSHTunnel w user privateKey serverAddr localAddr).loop
        = some (sshConn, listener) ∧
      ∀ sched, ∃ sys,
        (runTunnel w user privateKey serverAddr localAddr sched).2 = some sys ∧
        sys.sshConn = sshConn ∧ sys.listener = listener ∧
        sys.running = true ∧ sys.iterations = loopPicks sched) := by
  have hsys : ∀ sched sys,
      (runTunnel w user privateKey serverAddr localAddr sched).2 = some sys →
      sys.running = true ∧ sys.iterations = loopPicks sched := by
    intro sched sys hsys
    simp only [runTunnel, Option.map_eq_some'] at hsys
    obtain ⟨p, _, rfl⟩ := hsys
    have h := System.run_invariant sched (System.init p.1 p.2) rfl (by simp [System.init])
    exact ⟨h.1, by simpa [System.init] using h.2.1⟩
  have hok : ∀ signer sshConn listener, w.parsePrivateKey privateKey = .ok signer →
      w.sshDial "tcp" serverAddr (sshConfig user signer) = .ok sshConn →
      w.netListen "tcp" localAddr = .ok listener →
      (createSSHTunnel w user privateKey serverAddr localAddr).err = none ∧
      (createSSHTunnel w user privateKey serverAddr localAddr).loop
        = some (sshConn, listener) ∧
      ∀ sched, ∃ sys,
        (runTunnel w user privateKey serverAddr localAddr sched).2 = some sys ∧
        sys.sshConn = sshConn ∧ sys.listener = listener ∧
        sys.running = true ∧ sys.iterations = loopPicks sched := by
    intro signer sshConn listener h1 h2 h3
    have hc := createSSHTunnel_ok w user privateKey serverAddr localAddr signer sshConn
      listener h1 h2 h3
    refine ⟨by rw [hc], by rw [hc], ?_⟩
    intro sched
    have hr : (runTunnel w user privateKey serverAddr localAddr sched).2
        = some ((System.init sshConn listener).run sched) := by
      simp [runTunnel, hc]
    have hl := System.run_loopCalls sched (System.init sshConn listener) rfl
    have hi := hsys sched _ hr
    exact ⟨_, hr, hl.1, hl.2.1, hi.1, hi.2⟩
  refine ⟨?_, ?_, ?_, ?_, hok⟩
  · cases h1 : w.parsePrivateKey privateKey with
    | error e => simp [createSSHTunnel, h1]
    | ok signer =>
      cases h2 : w.sshDial "tcp" serverAddr (sshConfig user signer) with
      | error e => simp [createSSHTunnel, h1, h2]
      | ok sshConn =>
        cases h3 : w.netListen "tcp" localAddr with
        | error e => simp [createSSHTunnel, h1, h2, h3]
        | ok listener => simp [createSSHTunnel, h1, h2, h3]
  · cases h1 : w.parsePrivateKey privateKey with
    | error e => simp [createSSHTunnel, h1]
    | ok signer =>
      cases h2 : w.sshDial "tcp" serverAddr (sshConfig user signer) with
      | error e => simp [createSSHTunnel, h1, h2]
      | ok sshConn =>
        cases h3 : w.netListen "tcp" localAddr with
        | error e => simp [createSSHTunnel, h1, h2, h3]
        | ok listener => simp [createSSHTunnel, h1, h2, h3]
  · intro sched
    exact ⟨rfl, hsys sched⟩
  · intro herr sched
    cases h1 : w.parsePrivateKey privateKey with
    | error e => simp [createSSHTunnel, h1] at herr
    | ok signer =>
      cases h2 : w.sshDial "tcp" serverAddr (sshConfig user signer) with
      | error e => simp [createSSHTunnel, h1, h2] at herr
      | ok sshConn =>
        cases h3 : w.netListen "tcp" localAddr with
        | error e => simp [createSSHTunnel, h1, h2, h3] at herr
        | ok listener =>
          obtain ⟨sys, hs, _, _, hr, hi⟩ := (hok signer sshConn listener h1 h2 h3).2.2 sched
          exact ⟨sys, hs, hr, hi⟩

/-- Witness for C7: with all three steps succeeding the caller gets nil, and
after an accept failure, a channel-open failure and a relayed connection whose
first goroutine has run to its end the loop exists, has done three iterations
and is running. -/
theorem createSSHTunnel_error_iff_witness :
    (runTunnel goodWorld "root" "key" "host:22" "localhost:2375"
        [Pick.loop acceptFails, Pick.loop dialFails, Pick.loop bothSucceed,
         Pick.task 0, Pick.task 0, Pick.task 0, Pick.task 0, Pick.task 0]).1 = none ∧
    ∃ sys, (runTunnel goodWorld "root" "key" "host:22" "localhost:2375"
        [Pick.loop acceptFails, Pick.loop dialFails, Pick.loop bothSucceed,
         Pick.task 0, Pick.task 0, Pick.task 0, Pick.task 0, Pick.task 0]).2 = some sys ∧
      sys.sshConn = { id := 1 } ∧ sys.listener = { id := 2 } ∧
      sys.running = true ∧ sys.iterations = 3 :=
  ⟨((createSSHTunnel_error_iff goodWorld "root" "key" "host:22" "localhost:2375").2.2.1 _).1,
   ((createSSHTunnel_error_iff goodWorld "root" "key" "host:22" "localhost:2375").2.2.2.2
      { id := 0 } { id := 1 } { id := 2 } rfl rfl rfl).2.2 _⟩

/-- C10: when the key parses, the SSH connection is made and `net.Listen`
fails, `createSSHTunnel` returns the wrapped listen error having made exactly
the parse, dial and listen calls, so the SSH connection is not closed; and on
no path does `createSSHTunnel`, its accept loop or a copy goroutine close the
SSH connection or the listener. -/
theorem createSSHTunnel_keeps_session (w : World)
    (user privateKey serverAddr localAddr : String) :
    (∀ signer sshConn e, w.parsePrivateKey privateKey = .ok signer →
      w.sshDial "tcp" serverAddr (sshConfig user signer) = .ok sshConn →
      w.netListen "tcp" localAddr = .error e →
      (createSSHTunnel w user privateKey serverAddr localAddr).err
          = some ("failed to listen on local address: " ++ e) ∧
      (createSSHTunnel w user privateKey serverAddr localAddr).calls
          = [Call.parsePrivateKey privateKey,
             Call.sshDial "tcp" serverAddr (sshConfig user signer),
             Call.netListen "tcp" localAddr] ∧
      Call.clientClose sshConn ∉
          (createSSHTunnel w user privateKey serverAddr localAddr).calls) ∧
    (∀ c ∈ (createSSHTunnel w user privateKey serverAddr localAddr).calls,
      c.closesSession = false) ∧
    (∀ sched sys, (runTunnel w user privateKey serverAddr localAddr sched).2 = some sys →
      ∀ c ∈ sys.loopCalls ++ sys.taskCalls, c.closesSession = false) := by
  refine ⟨?_, ?_, ?_⟩
  · intro signer sshConn e h1 h2 h3
    simp [createSSHTunnel, h1, h2, h3]
  · cases h1 : w.parsePrivateKey privateKey with
    | error e => simp [createSSHTunnel, h1, Call.closesSession]
    | ok signer =>
      cases h2 : w.sshDial "tcp" serverAddr (sshConfig user signer) with
      | error e => simp [createSSHTunnel, h1, h2, Call.closesSession]
      | ok sshConn =>
        cases h3 : w.netListen "tcp" localAddr with
        | error e => simp [createSSHTunnel, h1, h2, h3, Call.closesSession]
        | ok listener => simp [createSSHTunnel, h1, h2, h3, Call.closesSession]
  · intro sched sys hsys
    simp only [runTunnel, Option.map_eq_some'] at hsys
    obtain ⟨p, _, rfl⟩ := hsys
    exact (System.run_invariant sched (System.init p.1 p.2) rfl (by simp [System.init])).2.2

/-- Witness for C10: the local address is taken after the SSH connection was made. -/
theorem createSSHTunnel_keeps_session_witness :
    (createSSHTunnel portTakenWorld "root" "key" "host:22" "localhost:2375").err
        = some "failed to listen on local address: address already in use" ∧
    Call.clientClose { id := 1 } ∉
        (createSSHTunnel portTakenWorld "root" "key" "host:22" "localhost:2375").calls :=
  ⟨((createSSHTunnel_keeps_session portTakenWorld "root" "key" "host:22" "localhost:2375").1
      { id := 0 } { id := 1 } "address already in use" rfl rfl rfl).1,
   ((createSSHTunnel_keeps_session portTakenWorld "root" "key" "host:22" "localhost:2375").1
      { id := 0 } { id := 1 } "address already in use" rfl rfl rfl).2.2⟩

/-! ## Claims about the accept loop -/

/-- C3: in an iteration whose `Accept` returned a connection, a failed
`sshConn.Dial` makes the loop close that connection exactly once, launch no
goroutine and go on with the next iteration; a successful one makes it launch
the two copy goroutines over that pair, close nothing itself and go on. -/
theorem loopBody_after_accept (sshConn : SSHClient) (listener : Listener) (w : IterWorld)
    (localConn : Conn) (ha : w.accept = .ok localConn) :
    (∀ e, w.dial = .error e →
      (loopBody sshConn listener w).calls.count (Call.connClose localConn) = 1 ∧
      (loopBody sshConn listener w).spawned = [] ∧
      (∀ d s, Call.goCopy d s ∉ (loopBody sshConn listener w).calls) ∧
      (loopBody sshConn listener w).ctl = Ctl.continueStmt) ∧
    (∀ remoteConn, w.dial = .ok remoteConn →
      (loopBody sshConn listener w).spawned
          = [copyToLocal localConn remoteConn, copyToRemote localConn remoteConn] ∧
      (∀ c, Call.connClose c ∉ (loopBody sshConn listener w).calls) ∧
      (loopBody sshConn listener w).ctl = Ctl.endOfBody) ∧
    (∀ ws, forLoop sshConn listener (w :: ws)
        = (loopBody sshConn listener w :: (forLoop sshConn listener ws).1,
           (forLoop sshConn listener ws).2)) := by
  refine ⟨?_, ?_, ?_⟩
  · intro e hd
    rw [loopBody_dial_error sshConn listener w localConn e ha hd]
    simp
  · intro remoteConn hd
    rw [loopBody_ok sshConn listener w localConn remoteConn ha hd]
    simp
  · intro ws
    simp [forLoop_eq_map]

/-- Witness for C3: connection 10 whose channel-open fails is closed once, and
connection 20 gets its two goroutines. -/
theorem loopBody_after_accept_witness :
    ((loopBody { id := 1 } { id := 2 } dialFails).calls.count (Call.connClose { id := 10 }) = 1 ∧
      (loopBody { id := 1 } { id := 2 } dialFails).spawned = []) ∧
    (loopBody { id := 1 } { id := 2 } bothSucceed).spawned
        = [copyToLocal { id := 20 } { id := 21 }, copyToRemote { id := 20 } { id := 21 }] :=
  ⟨⟨((loopBody_after_accept { id := 1 } { id := 2 } dialFails { id := 10 } rfl).1
        "open failed" rfl).1,
    ((loopBody_after_accept { id := 1 } { id := 2 } dialFails { id := 10 } rfl).1
        "open failed" rfl).2.1⟩,
   ((loopBody_after_accept { id := 1 } { id := 2 } bothSucceed { id := 20 } rfl).2.1
        { id := 21 } rfl).1⟩

/-- C4: an iteration whose `Accept` fails only logs: it opens no channel,
closes nothing, launches nothing and does not leave the loop; and a run of any
number of such iterations performs every one of them and leaves the loop
running. -/
theorem loopBody_accept_failure (sshConn : SSHClient) (listener : Listener)
    (ws : List IterWorld) (h : ∀ w ∈ ws, ∃ e, w.accept = .error e) :
    (∀ w ∈ ws,
      (∀ c n a, Call.clientDial c n a ∉ (loopBody sshConn listener w).calls) ∧
      (∀ c, Call.connClose c ∉ (loopBody sshConn listener w).calls) ∧
      (∀ d s, Call.goCopy d s ∉ (loopBody sshConn listener w).calls) ∧
      (loopBody sshConn listener w).spawned = [] ∧
      (loopBody sshConn listener w).ctl = Ctl.continueStmt) ∧
    (forLoop sshConn listener ws).1.length = ws.length ∧
    (forLoop sshConn listener ws).2 = true ∧
    ∀ r ∈ (forLoop sshConn listener ws).1,
      r.spawned = [] ∧ ∃ e, r.calls = [Call.accept listener,
        Call.logPrintf ("failed to accept local connection: " ++ e)] := by
  refine ⟨?_, ?_, ?_, ?_⟩
  · intro w hw
    obtain ⟨e, he⟩ := h w hw
    rw [loopBody_accept_error sshConn listener w e he]
    simp
  · simp [forLoop_eq_map]
  · simp [forLoop_eq_map]
  · intro r hr
    simp only [forLoop_eq_map, List.mem_map] at hr
    obtain ⟨w, hw, rfl⟩ := hr
    obtain ⟨e, he⟩ := h w hw
    rw [loopBody_accept_error sshConn listener w e he]
    exact ⟨rfl, e, rfl⟩

/-- Witness for C4: three accept failures in a row. -/
theorem loopBody_accept_failure_witness :
    (forLoop { id := 1 } { id := 2 } [acceptFails, acceptFails, acceptFails]).1.length = 3 ∧
    (forLoop { id := 1 } { id := 2 } [acceptFails, acceptFails, acceptFails]).2 = true :=
  have h := loopBody_accept_failure { id := 1 } { id := 2 }
    [acceptFails, acceptFails, acceptFails]
    (by intro w hw; simp at hw; subst hw; exact ⟨"too many open files", rfl⟩)
  ⟨h.2.1, h.2.2.1⟩

/-- C5: the loop performs one iteration per set of answers, the result of
iteration i is the loop body applied to the answers of iteration i alone, an
iteration launches goroutines exactly when its own `Accept` and its own
`sshConn.Dial` both succeed, and two runs whose answers agree at i agree on
the result of iteration i whatever the other iterations' answers are. -/
theorem forLoop_iterations_independent (sshConn : SSHClient) (listener : Listener) :
    (∀ ws, (forLoop sshConn listener ws).1 = ws.map (loopBody sshConn listener)) ∧
    (∀ w : IterWorld, (loopBody sshConn listener w).spawned ≠ [] ↔
      ∃ localConn remoteConn, w.accept = .ok localConn ∧ w.dial = .ok remoteConn) ∧
    (∀ (ws ws' : List IterWorld) (i : Nat) (w : IterWorld),
      ws.get? i = some w → ws'.get? i = some w →
      (forLoop sshConn listener ws).1.get? i = some (loopBody sshConn listener w) ∧
      (forLoop sshConn listener ws').1.get? i = some (loopBody sshConn listener w)) := by
  refine ⟨?_, ?_, ?_⟩
  · intro ws
    simp [forLoop_eq_map]
  · intro w
    unfold loopBody
    cases ha : w.accept <;> cases hd : w.dial <;> simp [copyToLocal]
  · intro ws ws' i w h1 h2
    simp [forLoop_eq_map, List.getElem?_map, h1, h2] at *
    simp [h1, h2]

/-- Witness for C5: around a failed channel-open, the neighbours get their
relays. -/
theorem forLoop_iterations_independent_witness :
    (forLoop { id := 1 } { id := 2 } [bothSucceed, dialFails, bothSucceed]).1.get? 2
        = some (loopBody { id := 1 } { id := 2 } bothSucceed) ∧
    (forLoop { id := 1 } { id := 2 } [acceptFails, acceptFails, bothSucceed]).1.get? 2
        = some (loopBody { id := 1 } { id := 2 } bothSucceed) :=
  (forLoop_iterations_independent { id := 1 } { id := 2 }).2.2
    [bothSucceed, dialFails, bothSucceed] [acceptFails, acceptFails, bothSucceed] 2
    bothSucceed rfl rfl

/-- C8: an iteration makes exactly one channel-open attempt when its `Accept`
succeeds and none when it fails; every attempt, in every iteration of a run,
is `Dial("unix", "/var/run/docker.sock")` on the SSH connection the loop was
started with; the goroutines launched by an iteration are the two copies over
the connection and the channel that this same iteration obtained; and when
`createSSHTunnel` has parsed the key, made the SSH connection and bound the
listener, the loop it launched runs on that very connection and listener under
every schedule, its calls are those of the loop body on the successive
answers, the number of channel-opens equals the number of successful accepts,
and every one of them is that `Dial` on the connection `ssh.Dial` returned. -/
theorem loopBody_channel_open (sshConn : SSHClient) (listener : Listener) :
    (∀ (w : IterWorld) (localConn : Conn), w.accept = .ok localConn →
      (loopBody sshConn listener w).calls.countP Call.isClientDial = 1) ∧
    (∀ (w : IterWorld) (e : String), w.accept = .error e →
      (loopBody sshConn listener w).calls.countP Call.isClientDial = 0) ∧
    (∀ (ws : List IterWorld), ∀ r ∈ (forLoop sshConn listener ws).1, ∀ c n a,
      Call.clientDial c n a ∈ r.calls →
        c = sshConn ∧ n = "unix" ∧ a = "/var/run/docker.sock") ∧
    (∀ (ws : List IterWorld) (j : Nat) (r : IterResult) (w : IterWorld),
      (forLoop sshConn listener ws).1.get? j = some r → ws.get? j = some w →
      ∀ g ∈ r.spawned, ∃ localConn remoteConn,
        w.accept = .ok localConn ∧ w.dial = .ok remoteConn ∧
        r.spawned = [copyToLocal localConn remoteConn, copyToRemote localConn remoteConn]) ∧
    (∀ (world : World) (user privateKey serverAddr localAddr : String) (signer : Signer),
      world.parsePrivateKey privateKey = .ok signer →
      world.sshDial "tcp" serverAddr (sshConfig user signer) = .ok sshConn →
      world.netListen "tcp" localAddr = .ok listener →
      ∀ sched, ∃ sys,
        (runTunnel world user privateKey serverAddr localAddr sched).2 = some sys ∧
        sys.sshConn = sshConn ∧ sys.listener = listener ∧
        sys.loopCalls
          = ((forLoop sshConn listener (loopWorlds sched)).1.flatMap fun r => r.calls) ∧
        sys.loopCalls.countP Call.isClientDial = acceptedCount (loopWorlds sched) ∧
        ∀ c n a, Call.clientDial c n a ∈ sys.loopCalls →
          c = sshConn ∧ n = "unix" ∧ a = "/var/run/docker.sock") := by
  refine ⟨?_, ?_, ?_, ?_, ?_⟩
  · intro w localConn ha
    unfold loopBody
    rw [ha]
    cases w.dial <;> simp [Call.isClientDial]
  · intro w e ha
    rw [loopBody_accept_error sshConn listener w e ha]
    simp [Call.isClientDial]
  · intro ws r hr c n a hc
    simp only [forLoop_eq_map, List.mem_map] at hr
    obtain ⟨w, _, rfl⟩ := hr
    unfold loopBody at hc
    cases ha : w.accept <;> cases hd : w.dial <;> simp [ha, hd] at hc <;> simp [hc]
  · intro ws j r w hr hw g hg
    simp only [forLoop_eq_map, List.getElem?_map, List.get?_eq_getElem?] at hr hw
    rw [hw] at hr
    simp only [Option.map_some', Option.some.injEq] at hr
    subst hr
    unfold loopBody at hg ⊢
    cases ha : w.accept <;> cases hd : w.dial <;> simp [ha, hd] at hg ⊢
  · intro world user privateKey serverAddr localAddr signer h1 h2 h3 sched
    have hc := createSSHTunnel_ok world user privateKey serverAddr localAddr signer sshConn
      listener h1 h2 h3
    have hr : (runTunnel world user privateKey serverAddr localAddr sched).2
        = some ((System.init sshConn listener).run sched) := by
      simp [runTunnel, hc]
    have hl := System.run_loopCalls sched (System.init sshConn listener) rfl
    have hcalls : ((System.init sshConn listener).run sched).loopCalls
        = (((loopWorlds sched).map (loopBody sshConn listener)).flatMap fun r => r.calls) := by
      simpa [System.init] using hl.2.2
    refine ⟨_, hr, hl.1, hl.2.1, ?_, ?_, ?_⟩
    · rw [hcalls, forLoop_eq_map]
    · rw [hcalls]
      exact loopBody_clientDial_count sshConn listener (loopWorlds sched)
    · intro c n a hmem
      rw [hcalls] at hmem
      simp only [List.mem_flatMap, List.mem_map] at hmem
      obtain ⟨r, ⟨w, _, rfl⟩, hin⟩ := hmem
      exact loopBody_clientDial_target sshConn listener w c n a hin

/-- Witness for C8: one attempt after a successful accept, none after a
failed one, and in a run started by `createSSHTunnel` two attempts for two
successful accepts out of three, both on the connection `ssh.Dial` returned. -/
theorem loopBody_channel_open_witness :
    (loopBody { id := 1 } { id := 2 } dialFails).calls.countP Call.isClientDial = 1 ∧
    (loopBody { id := 1 } { id := 2 } acceptFails).calls.countP Call.isClientDial = 0 ∧
    ∃ sys, (runTunnel goodWorld "root" "key" "host:22" "localhost:2375"
        [Pick.loop bothSucceed, Pick.task 0, Pick.loop acceptFails, Pick.loop dialFails]).2
          = some sys ∧
      sys.sshConn = { id := 1 } ∧ sys.listener = { id := 2 } ∧
      sys.loopCalls.countP Call.isClientDial = 2 ∧
      ∀ c n a, Call.clientDial c n a ∈ sys.loopCalls →
        c = { id := 1 } ∧ n = "unix" ∧ a = "/var/run/docker.sock" :=
  ⟨(loopBody_channel_open { id := 1 } { id := 2 }).1 dialFails { id := 10 } rfl,
   (loopBody_channel_open { id := 1 } { id := 2 }).2.1 acceptFails "too many open files" rfl,
   match (loopBody_channel_open { id := 1 } { id := 2 }).2.2.2.2 goodWorld "root" "key"
      "host:22" "localhost:2375" { id := 0 } rfl rfl rfl
      [Pick.loop bothSucceed, Pick.task 0, Pick.loop acceptFails, Pick.loop dialFails] with
   | ⟨sys, h1, h2, h3, _, h5, h6⟩ => ⟨sys, h1, h2, h3, h5, h6⟩⟩

/-! ## Claims about the relay -/

/-- C1: each copy goroutine launched for an accepted connection runs to its
end in five steps, and what it does after its `io.Copy` has returned is to
close the remote channel and then the local connection; and under every
interleaving of the two goroutines of a relay, once either of them has
finished, `Close` has been called on both the local connection and the remote
channel. -/
theorem relay_closes_both (sshConn : SSHClient) (listener : Listener) (w : IterWorld)
    (localConn remoteConn : Conn) (ha : w.accept = .ok localConn)
    (hd : w.dial = .ok remoteConn) :
    (loopBody sshConn listener w).spawned
        = [copyToLocal localConn remoteConn, copyToRemote localConn remoteConn] ∧
    (copyToLocal localConn remoteConn).start.run 5
        = ({ todo := [], defers := [] },
           [Call.ioCopy localConn remoteConn, Call.connClose remoteConn,
            Call.connClose localConn]) ∧
    (copyToRemote localConn remoteConn).start.run 5
        = ({ todo := [], defers := [] },
           [Call.ioCopy remoteConn localConn, Call.connClose remoteConn,
            Call.connClose localConn]) ∧
    (∀ sched,
      ((Relay.launch localConn remoteConn).run sched).toLocal.finished = true ∨
        ((Relay.launch localConn remoteConn).run sched).toRemote.finished = true →
      Call.connClose localConn ∈ ((Relay.launch localConn remoteConn).run sched).calls ∧
      Call.connClose remoteConn ∈ ((Relay.launch localConn remoteConn).run sched).calls) := by
  refine ⟨?_, rfl, rfl, ?_⟩
  · rw [loopBody_ok sshConn listener w localConn remoteConn ha hd]
  · intro sched hf
    exact ⟨Relay.finished_closed sched localConn remoteConn localConn (Or.inl rfl) hf,
      Relay.finished_closed sched localConn remoteConn remoteConn (Or.inr rfl) hf⟩

/-- Witness for C1: the local-to-remote goroutine of connection 20 and channel
21 runs to its end while the other one is still blocked in its copy. -/
theorem relay_closes_both_witness :
    Call.connClose { id := 20 } ∈ ((Relay.launch { id := 20 } { id := 21 }).run
        [Side.toLocal, Side.toLocal, Side.toRemote, Side.toRemote, Side.toRemote,
         Side.toRemote, Side.toRemote]).calls ∧
    Call.connClose { id := 21 } ∈ ((Relay.launch { id := 20 } { id := 21 }).run
        [Side.toLocal, Side.toLocal, Side.toRemote, Side.toRemote, Side.toRemote,
         Side.toRemote, Side.toRemote]).calls :=
  (relay_closes_both { id := 1 } { id := 2 } bothSucceed { id := 20 } { id := 21 } rfl rfl).2.2.2
    [Side.toLocal, Side.toLocal, Side.toRemote, Side.toRemote, Side.toRemote,
     Side.toRemote, Side.toRemote] (Or.inr rfl)

/-- C2: of the two goroutines launched for an accepted connection, one copies
with the remote channel as destination and the local connection as source and
the other the reverse; in each direction the bytes put on the destination are
a leading part of the byte sequence read from the source, in order and
unchanged; as long as the copy has met no error they are the whole sequence
read so far, whether the copy has returned or is still waiting for its source;
and the copy does return once a read of its source reports end-of-stream or an
error. -/
theorem relay_byte_fidelity (sshConn : SSHClient) (listener : Listener) (w : IterWorld)
    (localConn remoteConn : Conn) (ha : w.accept = .ok localConn)
    (hd : w.dial = .ok remoteConn) (s : Streams) :
    (loopBody sshConn listener w).spawned
        = [copyToLocal localConn remoteConn, copyToRemote localConn remoteConn] ∧
    (copyToRemote localConn remoteConn).copy s
        = some (remoteConn, ioCopy (s.writes remoteConn) (s.reads localConn)) ∧
    (copyToLocal localConn remoteConn).copy s
        = some (localConn, ioCopy (s.writes localConn) (s.reads remoteConn)) ∧
    (∃ rest, readable (s.reads localConn)
        = (ioCopy (s.writes remoteConn) (s.reads localConn)).delivered ++ rest) ∧
    (∃ rest, readable (s.reads remoteConn)
        = (ioCopy (s.writes localConn) (s.reads remoteConn)).delivered ++ rest) ∧
    ((ioCopy (s.writes remoteConn) (s.reads localConn)).err = none →
      (ioCopy (s.writes remoteConn) (s.reads localConn)).delivered
        = readable (s.reads localConn)) ∧
    ((ioCopy (s.writes localConn) (s.reads remoteConn)).err = none →
      (ioCopy (s.writes localConn) (s.reads remoteConn)).delivered
        = readable (s.reads remoteConn)) ∧
    ((∃ x ∈ s.reads localConn, x.err.isSome = true) →
      (ioCopy (s.writes remoteConn) (s.reads localConn)).returned = true) ∧
    ((∃ x ∈ s.reads remoteConn, x.err.isSome = true) →
      (ioCopy (s.writes localConn) (s.reads remoteConn)).returned = true) := by
  refine ⟨?_, rfl, rfl, ?_, ?_, ?_, ?_, ?_, ?_⟩
  · rw [loopBody_ok sshConn listener w localConn remoteConn ha hd]
  · obtain ⟨d, rest, h1, h2⟩ := ioCopyFrom_delivered (s.writes remoteConn)
      (s.reads localConn) 0 { delivered := [], written := 0, err := none, returned := false }
    exact ⟨rest, by rw [h2]; simp only [ioCopy, h1, List.nil_append]⟩
  · obtain ⟨d, rest, h1, h2⟩ := ioCopyFrom_delivered (s.writes localConn)
      (s.reads remoteConn) 0 { delivered := [], written := 0, err := none, returned := false }
    exact ⟨rest, by rw [h2]; simp only [ioCopy, h1, List.nil_append]⟩
  · intro h4
    have h := ioCopyFrom_no_error (s.writes remoteConn) (s.reads localConn) 0
      { delivered := [], written := 0, err := none, returned := false } h4
    simpa [ioCopy] using h
  · intro h4
    have h := ioCopyFrom_no_error (s.writes localConn) (s.reads remoteConn) 0
      { delivered := [], written := 0, err := none, returned := false } h4
    simpa [ioCopy] using h
  · intro h
    exact ioCopyFrom_returns _ _ _ _ h
  · intro h
    exact ioCopyFrom_returns _ _ _ _ h

/-- Witness for C2: `PING` reaches the remote channel whole, read in two
chunks, both on a stream the client then closes and on one it leaves open. -/
theorem relay_byte_fidelity_witness :
    ((ioCopy (pingPong.writes { id := 21 }) (pingPong.reads { id := 20 })).delivered
        = readable (pingPong.reads { id := 20 }) ∧
      readable (pingPong.reads { id := 20 }) = [80, 73, 78, 71]) ∧
    ((ioCopy (openPing.writes { id := 21 }) (openPing.reads { id := 20 })).delivered
        = readable (openPing.reads { id := 20 }) ∧
      readable (openPing.reads { id := 20 }) = [80, 73, 78, 71] ∧
      (ioCopy (openPing.writes { id := 21 }) (openPing.reads { id := 20 })).returned = false) :=
  ⟨⟨(relay_byte_fidelity { id := 1 } { id := 2 } bothSucceed { id := 20 } { id := 21 } rfl rfl
      pingPong).2.2.2.2.2.1 (by decide), by decide⟩,
   ⟨(relay_byte_fidelity { id := 1 } { id := 2 } bothSucceed { id := 20 } { id := 21 } rfl rfl
      openPing).2.2.2.2.2.1 (by decide), by decide, by decide⟩⟩

/-! ## Claims about concurrency -/

/-- C9: an iteration whose channel-open succeeded adds the two copy
goroutines, not yet started, to the system and leaves the loop running having
itself called no `io.Copy`; the loop goes through any number of iterations
while no copy goroutine takes a single step; an iteration and a step of an
existing goroutine give the same system in either order; and a goroutine's
step changes neither the loop nor any other goroutine. -/
theorem accept_loop_never_waits (s : System) (h : s.running = true) :
    (∀ w localConn remoteConn, w.accept = .ok localConn → w.dial = .ok remoteConn →
      (s.step (Pick.loop w)).tasks = s.tasks ++
        [(copyToLocal localConn remoteConn).start, (copyToRemote localConn remoteConn).start] ∧
      (s.step (Pick.loop w)).taskCalls = s.taskCalls ∧
      (s.step (Pick.loop w)).running = true ∧
      (s.step (Pick.loop w)).iterations = s.iterations + 1 ∧
      (s.step (Pick.loop w)).loopCalls = s.loopCalls ++ (loopBody s.sshConn s.listener w).calls ∧
      ∀ d c, Call.ioCopy d c ∉ (loopBody s.sshConn s.listener w).calls) ∧
    (∀ ws : List IterWorld,
      (s.run (ws.map Pick.loop)).iterations = s.iterations + ws.length ∧
      (s.run (ws.map Pick.loop)).running = true ∧
      (s.run (ws.map Pick.loop)).taskCalls = s.taskCalls ∧
      (s.run (ws.map Pick.loop)).tasks = s.tasks ++
        ((ws.map (loopBody s.sshConn s.listener)).flatMap fun r =>
          r.spawned.map Goroutine.start)) ∧
    (∀ w i, i < s.tasks.length →
      (s.step (Pick.loop w)).step (Pick.task i) = (s.step (Pick.task i)).step (Pick.loop w)) ∧
    (∀ i, (s.step (Pick.task i)).running = s.running ∧
      (s.step (Pick.task i)).iterations = s.iterations ∧
      (s.step (Pick.task i)).loopCalls = s.loopCalls ∧
      ∀ j, j ≠ i → (s.step (Pick.task i)).tasks.get? j = s.tasks.get? j) := by
  refine ⟨?_, ?_, ?_, ?_⟩
  · intro w localConn remoteConn ha hd
    rw [System.step_loop s w h, loopBody_ok _ _ w localConn remoteConn ha hd]
    simp
  · intro ws
    exact System.run_loop_only ws s h
  · intro w i hi
    exact System.step_commute s w i h hi
  · intro i
    have hf := System.step_task_frame s i
    exact ⟨hf.1, hf.2.1, hf.2.2.1, hf.2.2.2.2.2⟩

/-- Witness for C9: two connections are relayed and then an accept fails,
while none of the four goroutines has taken a step. -/
theorem accept_loop_never_waits_witness :
    ((System.init { id := 1 } { id := 2 }).run
        ([bothSucceed, bothSucceed, acceptFails].map Pick.loop)).iterations = 0 + 3 ∧
    ((System.init { id := 1 } { id := 2 }).run
        ([bothSucceed, bothSucceed, acceptFails].map Pick.loop)).taskCalls = [] ∧
    ((System.init { id := 1 } { id := 2 }).run
        ([bothSucceed, bothSucceed, acceptFails].map Pick.loop)).tasks.length = 4 :=
  have h := (accept_loop_never_waits (System.init { id := 1 } { id := 2 }) rfl).2.1
    [bothSucceed, bothSucceed, acceptFails]
  ⟨h.1, h.2.2.1, by rw [h.2.2.2]; rfl⟩

end SshTunnel
